import Mathlib

/-!
Verification of the `monero-adaptor` crate: a two-party adaptor variant of an
11-member MLSAG-style ring signature over the Ed25519 group.

The embedding is parametric in the Ed25519 group: `Point` is any additive
commutative group with a scalar action of `ZMod curveOrder` (the prime order of
the Ed25519 subgroup).  The external primitives that the Rust code obtains from
libraries or FFI — the base point, point compression, the SHA-512 digest
function and Monero's `hash_to_p3`-based hash-to-point — are bundled in a
context structure `Ctx`.  Everything the crate itself computes (scalar
reduction of digests, little-endian scalar encodings, transcript
concatenations, the challenge chain, the protocol state machine) is translated
directly from `monero-adaptor/src/lib.rs`.

Rust's `Result<T>` with `bail!`/`context` error messages becomes
`Except Error T` with an explicit error enumeration.  The `OsRng` draws of the
Rust constructors (`fake_responses`, `alpha_a`, `alpha_b`, DLEQ nonces) become
explicit arguments of the corresponding Lean functions.
-/

namespace MoneroAdaptor

set_option maxRecDepth 100000

/-- Order of the prime subgroup of Ed25519 (the modulus of
`curve25519_dalek::scalar::Scalar`). -/
abbrev curveOrder : ℕ := 2 ^ 252 + 27742317777372353535851937790883648493

/-- `curve25519_dalek::scalar::Scalar`: integers mod the Ed25519 group order. -/
abbrev Scalar := ZMod curveOrder

/-- The error kinds the crate produces via `anyhow`:
`context("not y-coordinate")` in `hash_point_to_point`,
`bail!("invalid DLEQ proof")` in `DleqProof::verify`, and
`bail!("opening does not match commitment")` in `Opening::open`. -/
inductive Error where
  | notYCoordinate
  | dleqInvalid
  | commitmentMismatch
deriving DecidableEq

deriving instance DecidableEq for Except

/-- `DOMAIN_TAG = "CSLAG_c"` as its ASCII bytes. -/
def domainTag : List ℕ := [67, 83, 76, 65, 71, 95, 99]

/-- `Scalar::from_hash`: interpret a SHA-512 digest as a little-endian integer
and reduce it mod the group order. -/
def scalarFromHash (digest : List ℕ) : Scalar :=
  ((digest.foldr (fun b acc => b + 256 * acc) 0 : ℕ) : Scalar)

/-- `Scalar::as_bytes`: the canonical 32-byte little-endian encoding. -/
def scalarBytes (s : Scalar) : List ℕ :=
  (List.range 32).map (fun i => s.val / 256 ^ i % 256)

/-- The external primitives of the crate, abstracted: the Ed25519 base point
(`ED25519_BASEPOINT_POINT`), point compression (`compress().as_bytes()`),
the SHA-512 digest (`sha2::Sha512`, modelled on full input byte strings since
`chain` just appends input), and the fallible Monero hash-to-point
(`hash_to_p3` + `ge_p3_tobytes` + `decompress`, which is a function of the
input point that may fail). -/
structure Ctx (Point : Type) where
  G : Point
  compress : Point → List ℕ
  hash512 : List ℕ → List ℕ
  hpp : Point → Option Point

variable {Point : Type} [AddCommGroup Point] [Module Scalar Point]

/-- `hash_point_to_point`: Monero's hash-to-point; decompression failure is the
"not y-coordinate" error. -/
def hash_point_to_point (C : Ctx Point) (p : Point) : Except Error Point :=
  match C.hpp p with
  | some q => Except.ok q
  | none => Except.error Error.notYCoordinate

/-- `challenge(s_i, pk_i, h_prev, I, prefix)`: one step of the ring hash chain.
`L_i = s_i·G + h_prev·pk_i`, `R_i = s_i·H_p(pk_i) + h_prev·I`, and the next
challenge is the hash of the transcript so far extended by `L_i ‖ R_i`. -/
def challenge (C : Ctx Point) (s_i : Scalar) (pk_i : Point) (h_prev : Scalar)
    (I : Point) (pfx : List ℕ) : Except Error Scalar :=
  let L_i := s_i • C.G + h_prev • pk_i
  match hash_point_to_point C pk_i with
  | Except.error e => Except.error e
  | Except.ok H_p_pk_i =>
    let R_i := s_i • H_p_pk_i + h_prev • I
    Except.ok (scalarFromHash (C.hash512 (pfx ++ C.compress L_i ++ C.compress R_i)))

/-- The `for (i, s_i) in … { h = challenge(s_i, pk_i, h, I, prefix)?; }` loops
of `final_challenge` and `Signature::verify`, over an explicit list of
(response, ring member) pairs. -/
def chain (C : Ctx Point) (I : Point) (pfx : List ℕ) :
    Scalar → List (Scalar × Point) → Except Error Scalar
  | h, [] => Except.ok h
  | h, (s, pk) :: rest =>
    match challenge C s pk h I pfx with
    | Except.error e => Except.error e
    | Except.ok h' => chain C I pfx h' rest

/-- `ring.iter().flat_map(|pk| pk.compress().as_bytes().to_vec())`. -/
def ringConcat (C : Ctx Point) (ring : List Point) : List ℕ :=
  (ring.map C.compress).flatten

/-- `final_challenge(fake_responses, ring, h_0, I, msg)`: fold the fake
responses through `challenge` starting from `h_0`, pairing response `i` with
`ring[i + 1]` (the pairs are `fake_responses.zip (ring.drop 1)`). -/
def final_challenge (C : Ctx Point) (fake_responses : List Scalar)
    (ring : List Point) (h_0 : Scalar) (I : Point) (msg : List ℕ) :
    Except Error Scalar :=
  let pfx := domainTag ++ ringConcat C ring ++ msg
  chain C I pfx h_0 (fake_responses.zip (ring.drop 1))

/-- `foo`: compute the initial challenge
`h_0 = H(DOMAIN_TAG ‖ ring ‖ msg ‖ (T_a+T_b+R_a) ‖ (Î_a+Î_b+R'_a))`
and the last challenge `h_last = final_challenge(…, h_0, I_a + I_b, msg)`;
returns `(h_last, h_0)`. -/
def foo (C : Ctx Point) (fake_responses : List Scalar) (ring : List Point)
    (T_a T_b R_a I_hat_a I_hat_b R_prime_a I_a I_b : Point) (msg : List ℕ) :
    Except Error (Scalar × Scalar) :=
  let h_0 := scalarFromHash (C.hash512
    (domainTag ++ ringConcat C ring ++ msg
      ++ C.compress (T_a + T_b + R_a)
      ++ C.compress (I_hat_a + I_hat_b + R_prime_a)))
  match final_challenge C fake_responses ring h_0 (I_a + I_b) msg with
  | Except.error e => Except.error e
  | Except.ok h_last => Except.ok (h_last, h_0)

/-- `AdaptorSignature { s_0_a, s_0_b, fake_responses, h_0, I }`. -/
structure AdaptorSignature (Point : Type) where
  s_0_a : Scalar
  s_0_b : Scalar
  fake_responses : List Scalar
  h_0 : Scalar
  I : Point
deriving DecidableEq

/-- `Signature { responses, h_0, I }`. -/
structure Signature (Point : Type) where
  responses : List Scalar
  h_0 : Scalar
  I : Point
deriving DecidableEq

/-- `AdaptorSignature::adapt(y)`: `r_last = s_0_a + s_0_b + y`; the responses
are the fake responses followed by `r_last`. -/
def AdaptorSignature.adapt (sig : AdaptorSignature Point) (y : Scalar) :
    Signature Point :=
  let r_last := sig.s_0_a + sig.s_0_b + y
  { responses := sig.fake_responses ++ [r_last]
    h_0 := sig.h_0
    I := sig.I }

/-- `Signature::verify(ring, msg)`: walk the challenge chain over all
responses, pairing response `i` with `ring[(i + 1) % RING_SIZE]` — i.e. the
pairs are `responses.zip (ring.rotate 1)` — and accept iff the final challenge
equals `h_0`.  (`verify_eq_specVerify` below proves this rendering equal to
the indexed loop of the source.) -/
def Signature.verify (C : Ctx Point) (sig : Signature Point)
    (ring : List Point) (msg : List ℕ) : Except Error Bool :=
  let pfx := domainTag ++ ringConcat C ring ++ msg
  match chain C sig.I pfx sig.h_0 (sig.responses.zip (ring.rotate 1)) with
  | Except.error e => Except.error e
  | Except.ok h => Except.ok (decide (h = sig.h_0))

/-- `DleqProof { s, c }`. -/
structure DleqProof where
  s : Scalar
  c : Scalar
deriving DecidableEq

/-- `DleqProof::new(G, xG, H, xH, x)` with the `OsRng` nonce `r` made an
explicit argument: `c = H(G ‖ xG ‖ H ‖ xH ‖ rG ‖ rH)`, `s = r + c·x`. -/
def DleqProof.new (C : Ctx Point) (G xG H xH : Point) (x r : Scalar) :
    DleqProof :=
  let rG := r • G
  let rH := r • H
  let c := scalarFromHash (C.hash512
    (C.compress G ++ C.compress xG ++ C.compress H ++ C.compress xH
      ++ C.compress rG ++ C.compress rH))
  { s := r + c * x, c := c }

/-- `DleqProof::verify(G, xG, H, xH)`: recompute `rG = s·G + (−c)·xG`,
`rH = s·H + (−c)·xH`, rehash, and fail with the DLEQ error unless `c = c'`. -/
def DleqProof.verify (C : Ctx Point) (pf : DleqProof) (G xG H xH : Point) :
    Except Error Unit :=
  let rG := pf.s • G + (-pf.c) • xG
  let rH := pf.s • H + (-pf.c) • xH
  let c' := scalarFromHash (C.hash512
    (C.compress G ++ C.compress xG ++ C.compress H ++ C.compress xH
      ++ C.compress rG ++ C.compress rH))
  if pf.c = c' then Except.ok () else Except.error Error.dleqInvalid

/-- `Commitment([u8; 64])`. -/
structure Commitment where
  bytes : List ℕ
deriving DecidableEq

/-- `Commitment::new`: SHA-512 of the fake-response scalar bytes followed by
the three compressed points. -/
def Commitment.new (C : Ctx Point) (fake_responses : List Scalar)
    (I_a I_hat_a T_a : Point) : Commitment :=
  ⟨C.hash512 ((fake_responses.map scalarBytes).flatten
    ++ C.compress I_a ++ C.compress I_hat_a ++ C.compress T_a)⟩

/-- `Opening { fake_responses, I_a, I_hat_a, T_a }`. -/
structure Opening (Point : Type) where
  fake_responses : List Scalar
  I_a : Point
  I_hat_a : Point
  T_a : Point
deriving DecidableEq

/-- `Opening::new`. -/
def Opening.new (fake_responses : List Scalar) (I_a I_hat_a T_a : Point) :
    Opening Point :=
  { fake_responses, I_a, I_hat_a, T_a }

/-- `Opening::open(commitment)`: rebuild the commitment from the opening's own
fields; on match return the fields, otherwise fail with the
commitment-mismatch error. -/
def Opening.open' (C : Ctx Point) (o : Opening Point)
    (commitment : Commitment) :
    Except Error (List Scalar × Point × Point × Point) :=
  let self_commitment := Commitment.new C o.fake_responses o.I_a o.I_hat_a o.T_a
  if self_commitment = commitment
  then Except.ok (o.fake_responses, o.I_a, o.I_hat_a, o.T_a)
  else Except.error Error.commitmentMismatch

/-- `Message0 { c_a, pi_a }` (Alice to Bob). -/
structure Message0 where
  c_a : Commitment
  pi_a : DleqProof
deriving DecidableEq

/-- `Message1 { I_b, T_b, I_hat_b, pi_b }` (Bob to Alice). -/
structure Message1 (Point : Type) where
  I_b : Point
  T_b : Point
  I_hat_b : Point
  pi_b : DleqProof
deriving DecidableEq

/-- `Message2 { d_a, s_0_a }` (Alice to Bob). -/
structure Message2 (Point : Type) where
  d_a : Opening Point
  s_0_a : Scalar
deriving DecidableEq

/-- `Message3 { s_0_b }` (Bob to Alice). -/
structure Message3 where
  s_0_b : Scalar
deriving DecidableEq

/-- `Alice0`. -/
structure Alice0 (Point : Type) where
  ring : List Point
  fake_responses : List Scalar
  msg : List ℕ
  R_a : Point
  R_prime_a : Point
  s_prime_a : Scalar
  alpha_a : Scalar
  H_p_pk : Point
  I_a : Point
  I_hat_a : Point
  T_a : Point

/-- `Alice0::new(ring, msg, R_a, R_prime_a, s_prime_a)` with the `OsRng` draws
(`fake_responses` and `alpha_a`) made explicit arguments:
`H_p_pk = H_p(ring[0])`, `I_a = s'_a·H_p_pk`, `Î_a = α_a·H_p_pk`,
`T_a = α_a·G`. -/
def Alice0.new (C : Ctx Point) (ring : List Point) (msg : List ℕ)
    (R_a R_prime_a : Point) (s_prime_a : Scalar)
    (fake_responses : List Scalar) (alpha_a : Scalar) :
    Except Error (Alice0 Point) :=
  match hash_point_to_point C (ring.headD 0) with
  | Except.error e => Except.error e
  | Except.ok H_p_pk =>
    Except.ok
      { ring, fake_responses, msg, R_a, R_prime_a, s_prime_a, alpha_a, H_p_pk
        I_a := s_prime_a • H_p_pk
        I_hat_a := alpha_a • H_p_pk
        T_a := alpha_a • C.G }

/-- `Alice0::next_message` with the DLEQ nonce `r` explicit: commit to
`(fake_responses, I_a, Î_a, T_a)` and prove `log_G T_a = log_{H_p_pk} Î_a`. -/
def Alice0.next_message (C : Ctx Point) (a : Alice0 Point) (r : Scalar) :
    Message0 :=
  { pi_a := DleqProof.new C C.G a.T_a a.H_p_pk a.I_hat_a a.alpha_a r
    c_a := Commitment.new C a.fake_responses a.I_a a.I_hat_a a.T_a }

/-- `Alice1`. -/
structure Alice1 (Point : Type) where
  fake_responses : List Scalar
  I_a : Point
  I_hat_a : Point
  T_a : Point
  h_0 : Scalar
  I_b : Point
  s_0_a : Scalar

/-- `Alice0::receive(Message1)`: verify `π_b`, run `foo`, and compute
`s_0_a = α_a − h_last·s'_a`. -/
def Alice0.receive (C : Ctx Point) (a : Alice0 Point) (m : Message1 Point) :
    Except Error (Alice1 Point) :=
  match DleqProof.verify C m.pi_b C.G m.T_b a.H_p_pk m.I_hat_b with
  | Except.error e => Except.error e
  | Except.ok _ =>
    match foo C a.fake_responses a.ring a.T_a m.T_b a.R_a a.I_hat_a m.I_hat_b
        a.R_prime_a a.I_a m.I_b a.msg with
    | Except.error e => Except.error e
    | Except.ok (h_last, h_0) =>
      Except.ok
        { fake_responses := a.fake_responses
          h_0
          I_b := m.I_b
          s_0_a := a.alpha_a - h_last * a.s_prime_a
          I_a := a.I_a
          I_hat_a := a.I_hat_a
          T_a := a.T_a }

/-- `Alice1::next_message`: the opening and `s_0_a`. -/
def Alice1.next_message (a : Alice1 Point) : Message2 Point :=
  { d_a := Opening.new a.fake_responses a.I_a a.I_hat_a a.T_a
    s_0_a := a.s_0_a }

/-- `Alice2 { adaptor_sig }`. -/
structure Alice2 (Point : Type) where
  adaptor_sig : AdaptorSignature Point

/-- `Alice1::receive(Message3)`: assemble the adaptor signature with
`I = I_a + I_b`; this transition is infallible. -/
def Alice1.receive (a : Alice1 Point) (m : Message3) : Alice2 Point :=
  { adaptor_sig :=
      { s_0_a := a.s_0_a
        s_0_b := m.s_0_b
        fake_responses := a.fake_responses
        h_0 := a.h_0
        I := a.I_a + a.I_b } }

/-- `Bob0`. -/
structure Bob0 (Point : Type) where
  ring : List Point
  msg : List ℕ
  R_a : Point
  R_prime_a : Point
  s_b : Scalar
  alpha_b : Scalar
  H_p_pk : Point
  I_b : Point
  I_hat_b : Point
  T_b : Point

/-- `Bob0::new(ring, msg, R_a, R_prime_a, s_b)` with the `OsRng` draw
`alpha_b` explicit. -/
def Bob0.new (C : Ctx Point) (ring : List Point) (msg : List ℕ)
    (R_a R_prime_a : Point) (s_b : Scalar) (alpha_b : Scalar) :
    Except Error (Bob0 Point) :=
  match hash_point_to_point C (ring.headD 0) with
  | Except.error e => Except.error e
  | Except.ok H_p_pk =>
    Except.ok
      { ring, msg, R_a, R_prime_a, s_b, alpha_b, H_p_pk
        I_b := s_b • H_p_pk
        I_hat_b := alpha_b • H_p_pk
        T_b := alpha_b • C.G }

/-- `Bob1`. -/
structure Bob1 (Point : Type) where
  ring : List Point
  msg : List ℕ
  R_a : Point
  R_prime_a : Point
  s_b : Scalar
  alpha_b : Scalar
  H_p_pk : Point
  I_b : Point
  I_hat_b : Point
  T_b : Point
  pi_a : DleqProof
  c_a : Commitment

/-- `Bob0::receive(Message0)`: cache `(c_a, π_a)` unverified. -/
def Bob0.receive (b : Bob0 Point) (m : Message0) : Bob1 Point :=
  { ring := b.ring, msg := b.msg, R_a := b.R_a, R_prime_a := b.R_prime_a
    s_b := b.s_b, alpha_b := b.alpha_b, H_p_pk := b.H_p_pk, I_b := b.I_b
    I_hat_b := b.I_hat_b, T_b := b.T_b, pi_a := m.pi_a, c_a := m.c_a }

/-- `Bob1::next_message` with the DLEQ nonce `r` explicit. -/
def Bob1.next_message (C : Ctx Point) (b : Bob1 Point) (r : Scalar) :
    Message1 Point :=
  { I_b := b.I_b
    T_b := b.T_b
    I_hat_b := b.I_hat_b
    pi_b := DleqProof.new C C.G b.T_b b.H_p_pk b.I_hat_b b.alpha_b r }

/-- `Bob2 { s_0_b, adaptor_sig }`. -/
structure Bob2 (Point : Type) where
  s_0_b : Scalar
  adaptor_sig : AdaptorSignature Point
deriving DecidableEq

/-- `Bob1::receive(Message2)`: open the commitment, verify `π_a` against the
opened `T_a, Î_a`, run `foo`, compute `s_0_b = α_b − h_last·s_b` and assemble
the adaptor signature with the peer's `s_0_a` taken as sent. -/
def Bob1.receive (C : Ctx Point) (b : Bob1 Point) (m : Message2 Point) :
    Except Error (Bob2 Point) :=
  match Opening.open' C m.d_a b.c_a with
  | Except.error e => Except.error e
  | Except.ok (fake_responses, I_a, I_hat_a, T_a) =>
    match DleqProof.verify C b.pi_a C.G T_a b.H_p_pk I_hat_a with
    | Except.error e => Except.error e
    | Except.ok _ =>
      match foo C fake_responses b.ring T_a b.T_b b.R_a I_hat_a b.I_hat_b
          b.R_prime_a I_a b.I_b b.msg with
      | Except.error e => Except.error e
      | Except.ok (h_last, h_0) =>
        let s_0_b := b.alpha_b - h_last * b.s_b
        Except.ok
          { s_0_b
            adaptor_sig :=
              { s_0_a := m.s_0_a
                s_0_b
                fake_responses
                h_0
                I := I_a + b.I_b } }

/-- `Bob2::next_message`. -/
def Bob2.next_message (b : Bob2 Point) : Message3 :=
  { s_0_b := b.s_0_b }

/-- An honest four-message protocol run, exactly as in the crate's
`sign_and_verify_success` test: `A0`/`B0` are built from the same ring,
message and adaptor statement, the messages `M0, M1, M2, M3` are exchanged in
order, and Alice's adaptor signature is adapted with `y`.  The random draws
(`fake_responses`, `alpha_a`, `alpha_b`, and the DLEQ nonces `r_1`, `r_2`) are
explicit arguments. -/
def honestRun (C : Ctx Point) (ring : List Point) (msg : List ℕ)
    (R_a R_prime_a : Point) (s_prime_a s_b : Scalar)
    (fake_responses : List Scalar) (alpha_a alpha_b r_1 r_2 y : Scalar) :
    Except Error (Signature Point) := do
  let alice ← Alice0.new C ring msg R_a R_prime_a s_prime_a fake_responses
    alpha_a
  let bob ← Bob0.new C ring msg R_a R_prime_a s_b alpha_b
  let m0 := alice.next_message C r_1
  let bob := bob.receive m0
  let m1 := bob.next_message C r_2
  let alice ← alice.receive C m1
  let m2 := alice.next_message
  let bob ← bob.receive C m2
  let m3 := bob.next_message
  let alice := alice.receive m3
  pure (alice.adaptor_sig.adapt y)

/-- The same run as `honestRun`, except that the `Message3` Alice receives is
an arbitrary `m3'` instead of the one Bob produced — i.e. Bob's partial real
response may be dishonest. -/
def runWithM3 (C : Ctx Point) (ring : List Point) (msg : List ℕ)
    (R_a R_prime_a : Point) (s_prime_a s_b : Scalar)
    (fake_responses : List Scalar) (alpha_a alpha_b r_1 r_2 y : Scalar)
    (m3' : Message3) : Except Error (Signature Point) := do
  let alice ← Alice0.new C ring msg R_a R_prime_a s_prime_a fake_responses
    alpha_a
  let bob ← Bob0.new C ring msg R_a R_prime_a s_b alpha_b
  let m0 := alice.next_message C r_1
  let bob := bob.receive m0
  let m1 := bob.next_message C r_2
  let alice ← alice.receive C m1
  let m2 := alice.next_message
  let _ ← bob.receive C m2
  let alice := alice.receive m3'
  pure (alice.adaptor_sig.adapt y)

/-- Modelled from the spec (§4.6): verification as written there — set
`h := h_0` and for `i = 0..10` update
`h := challenge(responses[i], ring[(i+1) mod 11], h, I, P)` with
`P = SHA512(DOMAIN_TAG ‖ ring_concat ‖ msg)`; accept iff `h == h_0`. -/
def specVerify (C : Ctx Point) (sig : Signature Point) (ring : List Point)
    (msg : List ℕ) : Except Error Bool :=
  let P := domainTag ++ ringConcat C ring ++ msg
  match (List.range 11).foldlM
      (fun h i =>
        challenge C (sig.responses.getD i 0) (ring.getD ((i + 1) % 11) 0) h
          sig.I P)
      sig.h_0 with
  | Except.error e => Except.error e
  | Except.ok h => Except.ok (decide (h = sig.h_0))

/-! ### Concrete executable instances used by witnesses

The theorems below are parametric in the point group and the hash primitives;
the following small computable instance (the group `ℤ/ℓ` acting on itself, a
polynomial stand-in for SHA-512, an always-succeeding hash-to-point) lets the
universally quantified theorems be evaluated at closed inputs. -/

/-- A concrete primitive context over the group `Scalar` itself. -/
def CtxC : Ctx Scalar :=
  { G := 1
    compress := fun p => [p.val]
    hash512 := fun bs => [bs.foldl (fun a b => a * 331 + b + 7) 3]
    hpp := fun p => some (p + 1) }

/-- A concrete primitive context whose hash-to-point always fails. -/
def CtxFail : Ctx Scalar :=
  { G := 1
    compress := fun p => [p.val]
    hash512 := fun bs => [bs.foldl (fun a b => a * 331 + b + 7) 3]
    hpp := fun _ => none }

/-- Ten concrete decoy ring members. -/
def restC : List Scalar := [11, 12, 13, 14, 15, 16, 17, 18, 19, 20]

/-- A concrete 11-member ring whose index-0 key is `(2 + 3) • CtxC.G`. -/
def ringC : List Scalar := 5 :: restC

/-- A concrete 32-byte message. -/
def msgC : List ℕ := List.range 32

/-- Ten concrete fake responses. -/
def fakesC : List Scalar := [1, 2, 3, 4, 5, 6, 7, 8, 9, 10]

/-- A concrete signature with eleven responses. -/
def sigC : Signature Scalar := ⟨fakesC ++ [99], 0, 1⟩

/-! ### Helper lemmas about the challenge chain and the DLEQ proof -/

theorem challenge_ok (C : Ctx Point) {pk q : Point} (hq : C.hpp pk = some q)
    (s h : Scalar) (I : Point) (pfx : List ℕ) :
    challenge C s pk h I pfx =
      Except.ok (scalarFromHash (C.hash512
        (pfx ++ C.compress (s • C.G + h • pk)
          ++ C.compress (s • q + h • I)))) := by
  simp [challenge, hash_point_to_point, hq]

theorem challenge_err (C : Ctx Point) {pk : Point} (hq : C.hpp pk = none)
    (s h : Scalar) (I : Point) (pfx : List ℕ) :
    challenge C s pk h I pfx = Except.error Error.notYCoordinate := by
  simp [challenge, hash_point_to_point, hq]

theorem chain_append (C : Ctx Point) (I : Point) (pfx : List ℕ)
    (xs ys : List (Scalar × Point)) (h : Scalar) :
    chain C I pfx h (xs ++ ys) =
      match chain C I pfx h xs with
      | Except.error e => Except.error e
      | Except.ok h' => chain C I pfx h' ys := by
  induction xs generalizing h with
  | nil => simp [chain]
  | cons p rest ih =>
    obtain ⟨s, pk⟩ := p
    simp only [List.cons_append, chain]
    cases challenge C s pk h I pfx with
    | error e => rfl
    | ok h' => exact ih h'

theorem chain_ok_of_hpp (C : Ctx Point) (I : Point) (pfx : List ℕ)
    (ps : List (Scalar × Point)) :
    ∀ h : Scalar, (∀ x ∈ ps, (C.hpp x.2).isSome) →
      ∃ h', chain C I pfx h ps = Except.ok h' := by
  induction ps with
  | nil => exact fun h _ => ⟨h, rfl⟩
  | cons p rest ih =>
    intro h hall
    obtain ⟨s, pk⟩ := p
    obtain ⟨q, hq⟩ := Option.isSome_iff_exists.mp
      (hall (s, pk) (List.mem_cons_self _ _))
    rw [chain, challenge_ok C hq]
    exact ih _ (fun x hx => hall x (List.mem_cons_of_mem _ hx))

theorem hpp_isSome_of_chain_ok (C : Ctx Point) (I : Point) (pfx : List ℕ)
    (ps : List (Scalar × Point)) :
    ∀ (h h' : Scalar), chain C I pfx h ps = Except.ok h' →
      ∀ x ∈ ps, (C.hpp x.2).isSome := by
  induction ps with
  | nil => intro h h' _ x hx; cases hx
  | cons p rest ih =>
    intro h h' hok x hx
    obtain ⟨s, pk⟩ := p
    rw [chain] at hok
    cases hq : C.hpp pk with
    | none => rw [challenge_err C hq] at hok; cases hok
    | some q =>
      rw [challenge_ok C hq] at hok
      rcases List.mem_cons.mp hx with hx | hx
      · subst hx; simp [hq]
      · exact ih _ _ hok x hx

theorem dleq_complete (C : Ctx Point) (G H : Point) (x r : Scalar) :
    DleqProof.verify C (DleqProof.new C G (x • G) H (x • H) x r) G (x • G) H
      (x • H) = Except.ok () := by
  have e1 : ∀ c : Scalar, (r + c * x) • G + (-c) • (x • G) = r • G :=
    fun c => by module
  have e2 : ∀ c : Scalar, (r + c * x) • H + (-c) • (x • H) = r • H :=
    fun c => by module
  have e1' : ∀ c : Scalar, (r + c * x) • G + -(c • (x • G)) = r • G :=
    fun c => by module
  have e2' : ∀ c : Scalar, (r + c * x) • H + -(c • (x • H)) = r • H :=
    fun c => by module
  simp [DleqProof.verify, DleqProof.new, e1, e2, e1', e2']

/-- The only outcomes of `DleqProof::verify` are success and the DLEQ error. -/
theorem dleq_verify_cases (C : Ctx Point) (pf : DleqProof) (G xG H xH : Point) :
    DleqProof.verify C pf G xG H xH = Except.ok () ∨
      DleqProof.verify C pf G xG H xH = Except.error Error.dleqInvalid := by
  rw [DleqProof.verify]
  split
  · exact Or.inl rfl
  · exact Or.inr rfl

/-- When the hash-to-point succeeds on every decoy (`ring.drop 1`), `foo`
succeeds, returning the transcript hash `h_0` and some final challenge
`h_last` that is the challenge chain over the fake responses. -/
theorem foo_ok (C : Ctx Point) (fakes : List Scalar) (ring : List Point)
    (Ta Tb Ra Iha Ihb Rpa Ia Ib : Point) (msg : List ℕ)
    (hrest : ∀ p ∈ ring.drop 1, (C.hpp p).isSome) :
    ∃ h_last,
      foo C fakes ring Ta Tb Ra Iha Ihb Rpa Ia Ib msg =
        Except.ok (h_last, scalarFromHash (C.hash512
          (domainTag ++ ringConcat C ring ++ msg
            ++ C.compress (Ta + Tb + Ra)
            ++ C.compress (Iha + Ihb + Rpa)))) ∧
      chain C (Ia + Ib) (domainTag ++ ringConcat C ring ++ msg)
        (scalarFromHash (C.hash512
          (domainTag ++ ringConcat C ring ++ msg
            ++ C.compress (Ta + Tb + Ra)
            ++ C.compress (Iha + Ihb + Rpa))))
        (fakes.zip (ring.drop 1)) = Except.ok h_last := by
  obtain ⟨h_last, hch⟩ := chain_ok_of_hpp C (Ia + Ib)
    (domainTag ++ ringConcat C ring ++ msg) (fakes.zip (ring.drop 1)) _
    (fun x hx => hrest x.2 (List.of_mem_zip hx).2)
  refine ⟨h_last, ?_, hch⟩
  simp only [foo, final_challenge]
  rw [hch]

omit [AddCommGroup Point] [Module Scalar Point] in
/-- `Opening::open` unfolded: an `if` on the rebuilt commitment. -/
theorem open_eq (C : Ctx Point) (o : Opening Point) (com : Commitment) :
    Opening.open' C o com =
      if Commitment.new C o.fake_responses o.I_a o.I_hat_a o.T_a = com
      then Except.ok (o.fake_responses, o.I_a, o.I_hat_a, o.T_a)
      else Except.error Error.commitmentMismatch := rfl

/-- `chain` is the effectful left fold of `challenge` over the pairs. -/
theorem chain_eq_foldlM (C : Ctx Point) (I : Point) (pfx : List ℕ)
    (ps : List (Scalar × Point)) :
    ∀ h : Scalar,
      chain C I pfx h ps =
        ps.foldlM (fun h sp => challenge C sp.1 sp.2 h I pfx) h := by
  induction ps with
  | nil => intro h; rfl
  | cons p rest ih =>
    intro h
    obtain ⟨s, pk⟩ := p
    rw [chain, List.foldlM_cons]
    cases challenge C s pk h I pfx with
    | error e => rfl
    | ok h' => exact ih h'

/-- On success, `Bob1::receive` stores the received `s_0_a` unchanged. -/
theorem bob1_receive_s0a (C : Ctx Point) (b : Bob1 Point) (m : Message2 Point)
    (b2 : Bob2 Point) (h : Bob1.receive C b m = Except.ok b2) :
    b2.adaptor_sig.s_0_a = m.s_0_a := by
  rw [Bob1.receive] at h
  cases ho : Opening.open' C m.d_a b.c_a with
  | error e => rw [ho] at h; cases h
  | ok tup =>
    obtain ⟨fr, Ia, Iha, Ta⟩ := tup
    rw [ho] at h
    dsimp only at h
    cases hd : DleqProof.verify C b.pi_a C.G Ta b.H_p_pk Iha with
    | error e => rw [hd] at h; cases h
    | ok u =>
      cases u
      rw [hd] at h
      dsimp only at h
      cases hf : foo C fr b.ring Ta b.T_b b.R_a Iha b.I_hat_b b.R_prime_a Ia
          b.I_b b.msg with
      | error e => rw [hf] at h; cases h
      | ok pr =>
        obtain ⟨hl, h0⟩ := pr
        rw [hf] at h
        dsimp only at h
        injection h with h2
        subst h2
        rfl

/-! ### Claim theorems -/

/-- C1: for every ring of 11 points with `ring[0] = (s'_a + s_b)·G`, every
32-byte message, every choice of the 10 fake responses, nonces `alpha_a`,
`alpha_b` (and DLEQ nonces), and every non-zero scalar `r_a = y` with
`R_a = y·G` and `R'_a = y·H_p(ring[0])`, an honest protocol run (Alice0/Bob0
constructed with these values, the four messages exchanged in order) followed
by `adapt(y)` yields a `Signature` for which `verify(ring, msg)` returns
`true`.  The hash-to-point is assumed to succeed on the ring members, as it
must for the run itself to complete. -/
theorem honest_run_verifies (C : Ctx Point) (p0 : Point) (rest : List Point)
    (msg : List ℕ) (Hpk R_a R_prime_a : Point)
    (s_prime_a s_b : Scalar) (fake_responses : List Scalar)
    (alpha_a alpha_b r_1 r_2 y : Scalar)
    (hrest_len : rest.length = 10) (hfakes : fake_responses.length = 10)
    (hpk : p0 = (s_prime_a + s_b) • C.G)
    (hHpk : C.hpp p0 = some Hpk)
    (hRa : R_a = y • C.G)
    (hRpa : R_prime_a = y • Hpk)
    (_hy : y ≠ 0)
    (hrest : ∀ p ∈ rest, (C.hpp p).isSome) :
    ∃ sig : Signature Point,
      honestRun C (p0 :: rest) msg R_a R_prime_a s_prime_a s_b
          fake_responses alpha_a alpha_b r_1 r_2 y = Except.ok sig ∧
        sig.verify C (p0 :: rest) msg = Except.ok true := by
  obtain ⟨h_last, hfoo, hchain⟩ := foo_ok C fake_responses (p0 :: rest)
    (alpha_a • C.G) (alpha_b • C.G) R_a (alpha_a • Hpk) (alpha_b • Hpk)
    R_prime_a (s_prime_a • Hpk) (s_b • Hpk) msg
    (by simpa using hrest)
  simp only [List.drop_succ_cons, List.drop_zero] at hchain
  refine ⟨⟨fake_responses ++ [alpha_a - h_last * s_prime_a +
      (alpha_b - h_last * s_b) + y],
    scalarFromHash (C.hash512 (domainTag ++ ringConcat C (p0 :: rest) ++ msg
      ++ C.compress (alpha_a • C.G + alpha_b • C.G + R_a)
      ++ C.compress (alpha_a • Hpk + alpha_b • Hpk + R_prime_a))),
    s_prime_a • Hpk + s_b • Hpk⟩, ?_, ?_⟩
  · simp only [honestRun, Alice0.new, Bob0.new, hash_point_to_point, hHpk,
      List.headD_cons, Alice0.next_message, Bob0.receive, Bob1.next_message,
      Alice0.receive, dleq_complete, Alice1.next_message, Bob1.receive,
      Opening.open', Opening.new, Bob2.next_message, Alice1.receive,
      AdaptorSignature.adapt, hfoo, bind, Except.bind, pure, Except.pure]
    simp [dleq_complete, hfoo]
  · simp only [Signature.verify]
    rw [show (p0 :: rest).rotate 1 = rest ++ [p0] from by
      rw [show (1 : ℕ) = 0 + 1 from rfl, List.rotate_cons_succ,
        List.rotate_zero]]
    rw [List.zip_append (by rw [hfakes, hrest_len])]
    rw [chain_append, hchain]
    have hL : (alpha_a - h_last * s_prime_a + (alpha_b - h_last * s_b) + y)
          • C.G + h_last • p0 =
        alpha_a • C.G + alpha_b • C.G + R_a := by
      rw [hpk, hRa]; module
    have hR : (alpha_a - h_last * s_prime_a + (alpha_b - h_last * s_b) + y)
          • Hpk + h_last • (s_prime_a • Hpk + s_b • Hpk) =
        alpha_a • Hpk + alpha_b • Hpk + R_prime_a := by
      rw [hRpa]; module
    simp only [chain, challenge_ok C hHpk, hL, hR]
    simp

/-- Witness for C1: the hypotheses hold and the run verifies at a concrete
instance. -/
theorem honest_run_verifies_witness :
    restC.length = 10 ∧ fakesC.length = 10 ∧
      (5 : Scalar) = ((2 : Scalar) + 3) • CtxC.G ∧
      CtxC.hpp 5 = some 6 ∧
      (5 : Scalar) = (5 : Scalar) • CtxC.G ∧
      (30 : Scalar) = (5 : Scalar) • (6 : Scalar) ∧
      (5 : Scalar) ≠ 0 ∧
      (∀ p ∈ restC, (CtxC.hpp p).isSome) ∧
      ∃ sig : Signature Scalar,
        honestRun CtxC (5 :: restC) msgC 5 30 2 3 fakesC 4 6 7 8 5 =
            Except.ok sig ∧
          sig.verify CtxC (5 :: restC) msgC = Except.ok true :=
  ⟨by decide, by decide, by decide, by decide, by decide, by decide,
    by decide, fun _ _ => rfl,
    honest_run_verifies CtxC 5 restC msgC 6 5 30 2 3 fakesC 4 6 7 8 5
      (by decide) (by decide) (by decide) (by decide) (by decide) (by decide)
      (by decide) (fun _ _ => rfl)⟩

omit [AddCommGroup Point] [Module Scalar Point] in
/-- C2: for every `AdaptorSignature` (its ten fake responses making the
adapted array eleven long) and every scalar `y`, the adapted signature
satisfies `responses[10] − s_0_a − s_0_b = y` in `ℤ/ℓ`: the adaptor witness is
exactly recoverable from the published last response and the two partial
responses. -/
theorem adaptor_witness_extractable (sig : AdaptorSignature Point) (y : Scalar)
    (hlen : sig.fake_responses.length = 10) :
    (sig.adapt y).responses.getD 10 0 - sig.s_0_a - sig.s_0_b = y := by
  have hlast : (sig.adapt y).responses.getD 10 0 =
      sig.s_0_a + sig.s_0_b + y := by
    rw [AdaptorSignature.adapt]
    rw [List.getD_append_right _ _ _ _ (le_of_eq hlen), hlen]
    rfl
  rw [hlast]
  ring

/-- Witness for C2 at a concrete adaptor signature. -/
theorem adaptor_witness_extractable_witness :
    (AdaptorSignature.mk 2 3 fakesC 0 (1 : Scalar)).fake_responses.length
        = 10 ∧
      ((AdaptorSignature.mk 2 3 fakesC 0 (1 : Scalar)).adapt 7).responses.getD
          10 0 - 2 - 3 = 7 :=
  ⟨by decide,
    adaptor_witness_extractable (AdaptorSignature.mk 2 3 fakesC 0 1) 7
      (by decide)⟩

/-- C6: DLEQ completeness — for every scalar `x`, every prover nonce `r` and
every pair of base points `G`, `H`, the proof produced by
`DleqProof::new(G, x·G, H, x·H, x)` is accepted by
`DleqProof::verify(G, x·G, H, x·H)`. -/
theorem dleq_completeness (C : Ctx Point) (G H : Point) (x r : Scalar) :
    DleqProof.verify C (DleqProof.new C G (x • G) H (x • H) x r) G (x • G) H
      (x • H) = Except.ok () :=
  dleq_complete C G H x r

omit [AddCommGroup Point] [Module Scalar Point] in
/-- C7: for every `AdaptorSignature` and every scalar `y`, `adapt(y)` produces
a `Signature` whose responses are exactly the fake responses in order followed
by `s_0_a + s_0_b + y`, and whose `h_0` and `I` are unchanged. -/
theorem adapt_responses_layout (sig : AdaptorSignature Point) (y : Scalar) :
    (sig.adapt y).responses
        = sig.fake_responses ++ [sig.s_0_a + sig.s_0_b + y] ∧
      (sig.adapt y).h_0 = sig.h_0 ∧ (sig.adapt y).I = sig.I :=
  ⟨rfl, rfl, rfl⟩

omit [AddCommGroup Point] [Module Scalar Point] in
/-- C4: `Opening::open(commitment)` returns the opening's four fields iff the
SHA-512 of the fake-response scalars' bytes concatenated with the three
compressed points equals the commitment's bytes, and on mismatch it fails with
the commitment-mismatch error.  In particular opening a commitment built from
the same fields always succeeds and returns those fields. -/
theorem opening_open_iff (C : Ctx Point) (o : Opening Point)
    (com : Commitment) :
    (Opening.open' C o com =
        Except.ok (o.fake_responses, o.I_a, o.I_hat_a, o.T_a) ↔
      C.hash512 ((o.fake_responses.map scalarBytes).flatten
          ++ C.compress o.I_a ++ C.compress o.I_hat_a ++ C.compress o.T_a)
        = com.bytes) ∧
    (Opening.open' C o com = Except.error Error.commitmentMismatch ↔
      ¬ C.hash512 ((o.fake_responses.map scalarBytes).flatten
          ++ C.compress o.I_a ++ C.compress o.I_hat_a ++ C.compress o.T_a)
        = com.bytes) ∧
    (∀ (fr : List Scalar) (Ia Iha Ta : Point),
      Opening.open' C (Opening.new fr Ia Iha Ta)
          (Commitment.new C fr Ia Iha Ta)
        = Except.ok (fr, Ia, Iha, Ta)) := by
  obtain ⟨bs⟩ := com
  refine ⟨?_, ?_, fun fr Ia Iha Ta => ?_⟩
  · by_cases hcm : C.hash512 ((o.fake_responses.map scalarBytes).flatten
        ++ C.compress o.I_a ++ C.compress o.I_hat_a ++ C.compress o.T_a) = bs
    · simp [open_eq, Commitment.new, hcm]
    · simp [open_eq, Commitment.new, hcm]
  · by_cases hcm : C.hash512 ((o.fake_responses.map scalarBytes).flatten
        ++ C.compress o.I_a ++ C.compress o.I_hat_a ++ C.compress o.T_a) = bs
    · simp [open_eq, Commitment.new, hcm]
    · simp [open_eq, Commitment.new, hcm]
  · simp [open_eq, Opening.new]

/-- C5: `DleqProof::verify(G, XG, H, XH)` succeeds iff the proof's `c` equals
the hash of the compressions of `G ‖ XG ‖ H ‖ XH ‖ (s·G − c·XG) ‖ (s·H −
c·XH)` in that exact order, and otherwise fails with the DLEQ-invalid
error. -/
theorem dleq_verify_iff (C : Ctx Point) (pf : DleqProof) (G xG H xH : Point) :
    (DleqProof.verify C pf G xG H xH = Except.ok () ↔
      pf.c = scalarFromHash (C.hash512
        (C.compress G ++ C.compress xG ++ C.compress H ++ C.compress xH
          ++ C.compress (pf.s • G - pf.c • xG)
          ++ C.compress (pf.s • H - pf.c • xH)))) ∧
    (DleqProof.verify C pf G xG H xH = Except.error Error.dleqInvalid ↔
      ¬ pf.c = scalarFromHash (C.hash512
        (C.compress G ++ C.compress xG ++ C.compress H ++ C.compress xH
          ++ C.compress (pf.s • G - pf.c • xG)
          ++ C.compress (pf.s • H - pf.c • xH)))) := by
  have e1 : pf.s • G + (-pf.c) • xG = pf.s • G - pf.c • xG := by module
  have e2 : pf.s • H + (-pf.c) • xH = pf.s • H - pf.c • xH := by module
  rw [DleqProof.verify]
  simp only [e1, e2]
  split
  · rename_i h
    exact ⟨iff_of_true rfl h, iff_of_false (by simp) (fun hn => hn h)⟩
  · rename_i h
    exact ⟨iff_of_false (by simp) h, iff_of_true rfl h⟩

/-- C3: `Signature::verify(ring, msg)` computes `h` by starting from the
signature's `h_0` and, for `i = 0..10` in order, updating
`h := challenge(responses[i], ring[(i+1) mod 11], h, I, P)` with `P` the
SHA-512 prefix of `DOMAIN_TAG ‖ the 11 compressed ring points ‖ msg`, and it
accepts exactly when the final `h` equals `h_0` — stated as equality of
`verify` with `specVerify`, the spec's indexed loop, for every 11-member ring
and every 11-long response array. -/
theorem verify_eq_specVerify (C : Ctx Point)
    (r0 r1 r2 r3 r4 r5 r6 r7 r8 r9 r10 : Scalar)
    (p0 p1 p2 p3 p4 p5 p6 p7 p8 p9 p10 : Point)
    (h0 : Scalar) (I : Point) (msg : List ℕ) :
    Signature.verify C ⟨[r0, r1, r2, r3, r4, r5, r6, r7, r8, r9, r10], h0, I⟩
        [p0, p1, p2, p3, p4, p5, p6, p7, p8, p9, p10] msg =
      specVerify C ⟨[r0, r1, r2, r3, r4, r5, r6, r7, r8, r9, r10], h0, I⟩
        [p0, p1, p2, p3, p4, p5, p6, p7, p8, p9, p10] msg := by
  simp only [Signature.verify, specVerify]
  rw [chain_eq_foldlM]
  rfl

/-- C8: `Bob1::receive(Message2)` fails with the commitment-mismatch error
whenever the received opening does not re-hash to the cached commitment `c_a`
(the DLEQ proof `π_a` is not consulted in that case); when the opening
matches but `π_a` does not verify against the base point, the opened `T_a`,
the stored `H_p_pk` and the opened `Î_a`, it fails with the DLEQ-invalid
error; and on success it computes `s_0_b = α_b − h_last·s_b` and assembles an
`AdaptorSignature` with `I = I_a + I_b` (and the peer's `s_0_a` as sent). -/
theorem bob1_receive_cases (C : Ctx Point) (b : Bob1 Point)
    (m : Message2 Point) :
    Bob1.receive C b m =
      if Commitment.new C m.d_a.fake_responses m.d_a.I_a m.d_a.I_hat_a
          m.d_a.T_a = b.c_a then
        if DleqProof.verify C b.pi_a C.G m.d_a.T_a b.H_p_pk m.d_a.I_hat_a
            = Except.ok () then
          match foo C m.d_a.fake_responses b.ring m.d_a.T_a b.T_b b.R_a
              m.d_a.I_hat_a b.I_hat_b b.R_prime_a m.d_a.I_a b.I_b b.msg with
          | Except.error e => Except.error e
          | Except.ok (h_last, h_0) =>
            Except.ok
              { s_0_b := b.alpha_b - h_last * b.s_b
                adaptor_sig :=
                  { s_0_a := m.s_0_a
                    s_0_b := b.alpha_b - h_last * b.s_b
                    fake_responses := m.d_a.fake_responses
                    h_0
                    I := m.d_a.I_a + b.I_b } }
        else Except.error Error.dleqInvalid
      else Except.error Error.commitmentMismatch := by
  rw [Bob1.receive, open_eq]
  by_cases h1 : Commitment.new C m.d_a.fake_responses m.d_a.I_a m.d_a.I_hat_a
      m.d_a.T_a = b.c_a
  · rw [if_pos h1, if_pos h1]
    dsimp only
    rcases dleq_verify_cases C b.pi_a C.G m.d_a.T_a b.H_p_pk m.d_a.I_hat_a
      with h2 | h2
    · rw [if_pos h2, h2]
    · rw [if_neg (by simp [h2]), h2]
  · rw [if_neg h1, if_neg h1]

/-- C9: if the hash-to-point fails on some ring member — each member being
used by one of the 11 challenge steps of verification — then
`Signature::verify` rejects: it never returns `Ok(true)`. -/
theorem verify_rejects_on_hpp_failure (C : Ctx Point) (sig : Signature Point)
    (ring : List Point) (msg : List ℕ)
    (hr : ring.length = 11) (hresp : sig.responses.length = 11)
    (p : Point) (hp : p ∈ ring) (hfail : C.hpp p = none) :
    sig.verify C ring msg ≠ Except.ok true := by
  intro hok
  simp only [Signature.verify] at hok
  cases hch : chain C sig.I (domainTag ++ ringConcat C ring ++ msg) sig.h_0
      (sig.responses.zip (ring.rotate 1)) with
  | error e => rw [hch] at hok; cases hok
  | ok h =>
    have hmem : p ∈ ring.rotate 1 := List.mem_rotate.mpr hp
    have hmap : (sig.responses.zip (ring.rotate 1)).map Prod.snd
        = ring.rotate 1 :=
      List.map_snd_zip _ _ (by simp [List.length_rotate, hr, hresp])
    rw [← hmap] at hmem
    obtain ⟨x, hx, hxp⟩ := List.mem_map.mp hmem
    have hsome := hpp_isSome_of_chain_ok C _ _ _ _ _ hch x hx
    rw [hxp, hfail] at hsome
    cases hsome

/-- Witness for C9 at a concrete signature, ring and failing hash-to-point. -/
theorem verify_rejects_on_hpp_failure_witness :
    ringC.length = 11 ∧ sigC.responses.length = 11 ∧ (5 : Scalar) ∈ ringC ∧
      CtxFail.hpp 5 = none ∧
      sigC.verify CtxFail ringC msgC ≠ Except.ok true :=
  ⟨by decide, by decide, List.mem_cons_self 5 restC, rfl,
    verify_rejects_on_hpp_failure CtxFail sigC ringC msgC (by decide)
      (by decide) 5 (List.mem_cons_self 5 restC) rfl⟩

/-- C10: neither side validates the peer's partial real response.
`Alice1::receive` is total — it stores the received `s_0_b` unchanged (and
its own `s_0_a`) — and `Bob1::receive`, whenever it succeeds, stores the
received `s_0_a` unchanged; consequently there is a dishonest `Message3` for
which an otherwise honest concrete run assembles an `AdaptorSignature` whose
adaptation does not verify. -/
theorem partial_response_unvalidated :
    (∀ {P : Type} [AddCommGroup P] [Module Scalar P]
        (a : Alice1 P) (m : Message3),
        (a.receive m).adaptor_sig.s_0_b = m.s_0_b ∧
          (a.receive m).adaptor_sig.s_0_a = a.s_0_a) ∧
    (∀ {P : Type} [AddCommGroup P] [Module Scalar P] (C : Ctx P)
        (b : Bob1 P) (m : Message2 P),
        (Bob1.receive C b m).map (fun b2 => b2.adaptor_sig.s_0_a)
          = (Bob1.receive C b m).map (fun _ => m.s_0_a)) ∧
    ∃ m3' : Message3,
      (runWithM3 CtxC ringC msgC 5 30 2 3 fakesC 4 6 7 8 5 m3').bind
          (fun sig => sig.verify CtxC ringC msgC) = Except.ok false := by
  refine ⟨fun a m => ⟨rfl, rfl⟩, ?_, ⟨⟨42⟩, by decide⟩⟩
  intro P instG instM C b m
  cases hrec : Bob1.receive C b m with
  | error e => rfl
  | ok b2 => simp [Except.map, bob1_receive_s0a C b m b2 hrec]

end MoneroAdaptor
